import Mathlib

/-!
Verification of the git-reviewer repository against its specification.

The development shallowly embeds the pure logic of the Python modules
`config.py`, `context.py`, `template.py`, `git_integration.py`,
`nllm_runner.py`, `cli.py` and `api.py`.  External collaborators
(the git subprocess calls, the nllm execution library, the filesystem,
`json.loads`) are modelled as explicit inputs: their outputs are carried
in structures or passed as function parameters, and the repository's own
glue code is translated statement by statement.

Numeric size checks: Python computes `st_size / (1024 * 1024)` in double
precision and compares with the integer limits 10 and 50; division of an
integer below 2^53 by the power of two 2^20 is exact, so the comparison
`size_mb > LIMIT` is equivalent to the integer comparison
`sizeBytes > LIMIT * 1048576`, which is how it is embedded here.
String formatting of sizes (`{:.1f}`) is embedded as exact
round-half-even to tenths of a megabyte; no theorem depends on these
digits.  Quote characters inside Python error messages are omitted from
the modelled message texts.
-/

namespace GitReviewer

/-! ## Shared helpers -/

/-- Python `sep.join(parts)`. -/
def joinSep (sep : String) : List String → String
  | [] => ""
  | [s] => s
  | s :: rest => s ++ sep ++ joinSep sep rest

/-- Python whitespace test used by `str.strip()`, restricted to the ASCII
whitespace characters (the strings handled by the tool are ASCII headers
and shell output). -/
def pyIsSpace (c : Char) : Bool :=
  c = ' ' || c = '\t' || c = '\n' || c = '\r' || c = '\x0b' || c = '\x0c'

/-- Python `str.strip()` on a character list. -/
def pstripList (l : List Char) : List Char :=
  ((l.dropWhile pyIsSpace).reverse.dropWhile pyIsSpace).reverse

/-- Python `str.strip()`. -/
def pstrip (s : String) : String :=
  String.mk (pstripList s.data)

/-- Association-list lookup, the semantics of `d[k]` / `d.get(k)` on a
Python dict whose insertion order is the list order. -/
def lookupKey {α : Type} : List (String × α) → String → Option α
  | [], _ => Option.none
  | (k', v) :: rest, k => if k' = k then some v else lookupKey rest k

/-- Python `d[k] = v` on an ordered dict: an existing key keeps its
position, a new key is appended at the end. -/
def setKey {α : Type} : List (String × α) → String → α → List (String × α)
  | [], k, v => [(k, v)]
  | (k', v') :: rest, k, v =>
    if k' = k then (k', v) :: rest else (k', v') :: setKey rest k v

/-- Exact round-half-even of `bytes / 2^20` to tenths, the value printed
by `f"{bytes/(1024*1024):.1f}"` for sizes below 2^53. -/
def roundTenthsMB (bytes : Nat) : Nat :=
  let n := bytes * 10
  let q := n / 1048576
  let r := n % 1048576
  if r > 524288 then q + 1
  else if r < 524288 then q
  else if q % 2 = 0 then q else q + 1

/-- Decimal rendering of a size in MB with one fractional digit. -/
def fmtMB1 (bytes : Nat) : String :=
  toString (roundTenthsMB bytes / 10) ++ "." ++ toString (roundTenthsMB bytes % 10)

/-! ## config.py -/

/-- A Python configuration value (`config.py` manipulates parsed YAML:
nested dicts, lists, scalars).  Dicts are ordered association lists. -/
inductive CVal where
  | int (n : Int)
  | str (s : String)
  | bool (b : Bool)
  | none
  | list (xs : List CVal)
  | dict (entries : List (String × CVal))

/-- Embedding of `config.deep_merge_config`: `result = base.copy()`, then
for each override entry, recurse when both the current result value and
the override value are dicts, otherwise assign wholesale. -/
def deep_merge_config (base : List (String × CVal)) :
    List (String × CVal) → List (String × CVal)
  | [] => base
  | (k, v) :: rest =>
    match lookupKey base k, v with
    | some (CVal.dict d1), CVal.dict d2 =>
      deep_merge_config (setKey base k (CVal.dict (deep_merge_config d1 d2))) rest
    | _, _ => deep_merge_config (setKey base k v) rest
termination_by l => sizeOf l
decreasing_by
  all_goals simp_wf
  all_goals omega

/-- Keys of an association list are pairwise distinct (true of every list
that embeds an actual Python dict). -/
def NodupKeys {α : Type} (d : List (String × α)) : Prop :=
  (d.map Prod.fst).Nodup

instance {α : Type} (d : List (String × α)) : Decidable (NodupKeys d) := by
  unfold NodupKeys; infer_instance

/-- A model entry of the `models` configuration section. -/
structure ModelCfg where
  name : String
  options : List String
deriving DecidableEq

/-- Configuration errors raised by `config.py`; the payload carries the
data interpolated into the Python message. -/
inductive ConfigurationError where
  | modelNotFound (name : String) (available : List String)
deriving DecidableEq

/-- Sorted insertion used to embed Python `sorted` on strings. -/
def insertStr (s : String) : List String → List String
  | [] => [s]
  | t :: rest => if s ≤ t then s :: t :: rest else t :: insertStr s rest

/-- Python `sorted` on a list of strings (insertion sort). -/
def sortStrings : List String → List String
  | [] => []
  | s :: rest => insertStr s (sortStrings rest)

/-- Available-name listing of `get_models_config`:
`sorted({model["name"] for model in all_models})`. -/
def sortedModelNames (models : List ModelCfg) : List String :=
  sortStrings ((models.map ModelCfg.name).dedup)

/-- Loop body of `get_models_config` over the requested names: the first
name absent from the available-name set raises; a present name appends
the first model with that name (the inner `for`/`break`). -/
def resolve_model_names (models : List ModelCfg) :
    List String → Except ConfigurationError (List ModelCfg)
  | [] => .ok []
  | n :: rest =>
    if (models.map ModelCfg.name).contains n then
      match resolve_model_names models rest with
      | .ok l => .ok ((models.find? (fun m => m.name == n)).toList ++ l)
      | .error e => .error e
    else .error (.modelNotFound n (sortedModelNames models))

/-- Embedding of `config.get_models_config`: `None` returns every model,
otherwise the requested names are resolved in order. -/
def get_models_config (models : List ModelCfg) :
    Option (List String) → Except ConfigurationError (List ModelCfg)
  | Option.none => .ok models
  | some ns => resolve_model_names models ns

/-! ## context.py

The filesystem is an explicit input: a finite map from path to file
metadata and content.  Path resolution (`Path.resolve`, joining with
`base_path`) is embedded as the identity — the paths handed to the
functions are taken to be already absolute and resolved, which is the
form in which every claim quantifies over them. -/

/-- Metadata and content of one filesystem entry.  `isFile = false`
models a path that exists but is not a regular file (a directory).
`hasNull` records whether the first kilobyte contains a null byte;
`utf8` records whether the bytes decode as UTF-8, in which case
`content` is the decoded text. -/
structure FSFile where
  isFile : Bool
  size : Nat
  content : String
  hasNull : Bool
  utf8 : Bool
deriving DecidableEq

/-- The filesystem visible to the context aggregator: paths absent from
the list do not exist. -/
def FileSys : Type := List (String × FSFile)

/-- Filesystem lookup (`Path.exists` is `lookupFS fs p ≠ none`). -/
def lookupFS (fs : FileSys) (p : String) : Option FSFile :=
  lookupKey fs p

/-- `context.MAX_FILE_SIZE_MB` in bytes. -/
def maxFileSizeBytes : Nat := 10 * 1048576

/-- `context.MAX_TOTAL_SIZE_MB` in bytes. -/
def maxTotalSizeBytes : Nat := 50 * 1048576

/-- Context-file errors raised by `context.py`; each constructor is one
`raise ContextError` site and carries the interpolated data. -/
inductive ContextError where
  | doesNotExist (path : String)
  | notAFile (path : String)
  | fileTooLarge (path : String) (size : Nat)
  | totalTooLarge (size : Nat)
deriving DecidableEq

/-- Python `str(e)` for the context errors (the message built at each
raise site). -/
def renderContextError : ContextError → String
  | .doesNotExist p => "Context file does not exist: " ++ p
  | .notAFile p => "Context path is not a file: " ++ p
  | .fileTooLarge p n =>
    "Context file too large: " ++ p ++ " (" ++ fmtMB1 n ++ "MB > 10MB)"
  | .totalTooLarge n =>
    "Total context files too large: " ++ fmtMB1 n ++ "MB > 50MB"

/-- Embedding of `context.validate_context_file`. -/
def validate_context_file (fs : FileSys) (p : String) : Except ContextError Unit :=
  match lookupFS fs p with
  | Option.none => .error (.doesNotExist p)
  | some info =>
    if info.isFile = false then .error (.notAFile p)
    else if info.size > maxFileSizeBytes then .error (.fileTooLarge p info.size)
    else .ok ()

/-- Embedding of `context.is_binary_file`: a null byte in the first
kilobyte; a file that cannot be opened is conservatively binary. -/
def is_binary_file (fs : FileSys) (p : String) : Bool :=
  match lookupFS fs p with
  | some info => info.hasNull
  | Option.none => true

/-- The `--- path ---` header wrapper used by `read_context_file`. -/
def fileHeaderBlock (p body : String) : String :=
  "\n--- " ++ p ++ " ---\n" ++ body ++ "\n"

/-- Embedding of `context.read_context_file`: validate, placeholder for
binary or non-UTF-8 content, otherwise header plus content.  (The
generic re-raise for unexpected `open` failures has no counterpart in
the model, whose existing files are always readable.) -/
def read_context_file (fs : FileSys) (p : String) : Except ContextError String :=
  match validate_context_file fs p with
  | .error e => .error e
  | .ok _ =>
    if is_binary_file fs p then
      .ok (fileHeaderBlock p "[Binary file - content not included]")
    else
      match lookupFS fs p with
      | Option.none => .ok (fileHeaderBlock p "[Binary file - content not included]")
      | some info =>
        if info.utf8 = false then
          .ok (fileHeaderBlock p "[Binary or non-UTF-8 file - content not included]")
        else .ok (fileHeaderBlock p info.content)

/-- The inline annotation `build_repo_context` appends when reading one
file raises a `ContextError`. -/
def inlineErrorNote (p : String) (e : ContextError) : String :=
  "\n--- " ++ p ++ " ---\n[Error reading file: " ++ renderContextError e ++ "]\n"

/-- The part contributed to the aggregate by one path: the file content
block, or the inline annotation when reading raises. -/
def readPart (fs : FileSys) (p : String) : String :=
  match read_context_file fs p with
  | .ok c => c
  | .error e => inlineErrorNote p e

/-- The pre-scan of `build_repo_context`: total size of the listed paths
that exist and are regular files (duplicates counted per occurrence, as
in the source). -/
def totalBytes (fs : FileSys) : List String → Nat
  | [] => 0
  | p :: rest =>
    (match lookupFS fs p with
     | some info => if info.isFile then info.size else 0
     | Option.none => 0) + totalBytes fs rest

/-- The aggregation loop of `build_repo_context`: skip paths already
processed, otherwise append the part for the path. -/
def contextParts (fs : FileSys) (processed : List String) :
    List String → List String
  | [] => []
  | p :: rest =>
    if p ∈ processed then contextParts fs processed rest
    else readPart fs p :: contextParts fs (p :: processed) rest

/-- Embedding of `context.build_repo_context`: empty input yields the
empty string; a total size above the aggregate limit fails; otherwise
the parts are aggregated with per-file errors downgraded to inline
annotations and joined with newlines. -/
def build_repo_context (fs : FileSys) (paths : List String) :
    Except ContextError String :=
  if paths = [] then .ok ""
  else if totalBytes fs paths > maxTotalSizeBytes then
    .error (.totalTooLarge (totalBytes fs paths))
  else if contextParts fs [] paths = [] then .ok ""
  else .ok (joinSep "\n" (contextParts fs [] paths))

/-- The counters returned by `get_context_summary` (sizes kept in bytes;
the final rounding of `total_size_mb` to two decimals is presentation
only and not modelled). -/
structure ContextSummary where
  total_files : Nat
  total_size : Nat
  readable_files : Nat
  binary_files : Nat
  missing_files : Nat
  error_files : Nat

/-- Embedding of `context.get_context_summary`: each listed path is
classified as missing, error (exists but not a regular file), binary, or
readable; the counters are accumulated over the list. -/
def get_context_summary (fs : FileSys) : List String → ContextSummary
  | [] => ⟨0, 0, 0, 0, 0, 0⟩
  | p :: rest =>
    let s := get_context_summary fs rest
    match lookupFS fs p with
    | Option.none =>
      ⟨s.total_files + 1, s.total_size, s.readable_files, s.binary_files,
        s.missing_files + 1, s.error_files⟩
    | some info =>
      if info.isFile = false then
        ⟨s.total_files + 1, s.total_size, s.readable_files, s.binary_files,
          s.missing_files, s.error_files + 1⟩
      else if is_binary_file fs p then
        ⟨s.total_files + 1, s.total_size + info.size, s.readable_files,
          s.binary_files + 1, s.missing_files, s.error_files⟩
      else
        ⟨s.total_files + 1, s.total_size + info.size, s.readable_files + 1,
          s.binary_files, s.missing_files, s.error_files⟩

/-! ## template.py

`SafeTemplate` inherits `string.Template` with the default delimiter `$`
and identifier pattern `(?a:[_a-zA-Z][_a-zA-Z0-9]*)`.  `safe_substitute`
scans for `$$` (escaped delimiter), `$name`, `${name}` and the
always-matching empty `invalid` alternative; a bound name is replaced, an
unbound one is left verbatim, `$$` becomes `$`, and an invalid token
leaves the bare `$` in place.  Its `convert` helper can only raise
`ValueError` when no group matched, which cannot happen, so the
`except ValueError` wrapper in `SafeTemplate.safe_substitute` (and the
`except Exception` wrapper in `substitute_variables`) is unreachable and
substitution is total. -/

/-- Opening brace character (ASCII 123). -/
def lbrace : Char := Char.ofNat 123

/-- Closing brace character (ASCII 125). -/
def rbrace : Char := Char.ofNat 125

/-- First character of a template identifier: `[_a-zA-Z]` (the `(?a:)`
flag makes the pattern ASCII-only, matching `Char.isAlpha`). -/
def isIdentStart (c : Char) : Bool := c = '_' || c.isAlpha

/-- Subsequent character of a template identifier: `[_a-zA-Z0-9]`. -/
def isIdentChar (c : Char) : Bool := c = '_' || c.isAlpha || c.isDigit

/-- Length bound used for the termination of the scanner. -/
theorem takeWhileLenLe (p : Char → Bool) (l : List Char) :
    (l.takeWhile p).length ≤ l.length :=
  (List.takeWhile_sublist p).length_le

/-- Embedding of `SafeTemplate.safe_substitute` as a scanner over the
character list of the template content. -/
def safe_substitute (vars : List (String × String)) : List Char → List Char
  | [] => []
  | c :: rest =>
    if c = '$' then
      match rest with
      | [] => ['$']
      | c₁ :: rest₁ =>
        if c₁ = '$' then '$' :: safe_substitute vars rest₁
        else if c₁ = lbrace then
          let ident := rest₁.takeWhile isIdentChar
          let after := rest₁.drop ident.length
          if ident ≠ [] ∧ isIdentStart (ident.headD ' ') ∧ after.headD ' ' = rbrace then
            match lookupKey vars (String.mk ident) with
            | some v => v.data ++ safe_substitute vars (after.drop 1)
            | Option.none =>
              '$' :: lbrace :: (ident ++ rbrace :: safe_substitute vars (after.drop 1))
          else '$' :: safe_substitute vars (c₁ :: rest₁)
        else if isIdentStart c₁ then
          let ident := c₁ :: rest₁.takeWhile isIdentChar
          let after := rest₁.drop (rest₁.takeWhile isIdentChar).length
          match lookupKey vars (String.mk ident) with
          | some v => v.data ++ safe_substitute vars after
          | Option.none => '$' :: (ident ++ safe_substitute vars after)
        else '$' :: safe_substitute vars (c₁ :: rest₁)
    else c :: safe_substitute vars rest
termination_by l => l.length
decreasing_by
  all_goals simp [List.length_drop]
  all_goals omega

/-- Embedding of `template.substitute_variables` (the empty-content
shortcut, then `SafeTemplate(content).safe_substitute(variables)`). -/
def substitute_variables (content : String) (vars : List (String × String)) : String :=
  if content = "" then content
  else String.mk (safe_substitute vars content.data)

/-- Template errors raised by `template.py`. -/
inductive TemplateError where
  | emptyPromptSection
deriving DecidableEq

/-- Python `populated_template.get(key, "")` on the populated-template
dict. -/
def pyGetD (tmpl : List (String × String)) (k : String) : String :=
  (lookupKey tmpl k).getD ""

/-- Embedding of `template.format_prompt_for_nllm`: strip the `system`
and `prompt` sections, fail when the stripped prompt is empty, and
otherwise join the non-empty sections with a blank line. -/
def format_prompt_for_nllm (tmpl : List (String × String)) :
    Except TemplateError String :=
  let system_content := pstrip (pyGetD tmpl "system")
  let prompt_content := pstrip (pyGetD tmpl "prompt")
  if prompt_content = "" then .error .emptyPromptSection
  else if system_content = "" then .ok prompt_content
  else .ok (system_content ++ "\n\n" ++ prompt_content)

/-! ## git_integration.py

`generate_diff` is glue around five git subprocess invocations; their
raw standard outputs are the fields of `GitState` below.  The
`except subprocess.CalledProcessError` around the per-file
`git diff --no-index` call is dead code (the call is made without
`check=True`, so it never raises), and is therefore not modelled. -/

/-- The subprocess outputs `generate_diff` consumes: the raw stdout of
the committed, staged and unstaged `git diff` calls, of
`git ls-files --others --exclude-standard`, and of
`git diff --no-index /dev/null f` for each untracked file `f`. -/
structure GitState where
  committedOut : String
  stagedOut : String
  unstagedOut : String
  untrackedLs : String
  noIndexDiff : String → String

/-- Git errors raised by `git_integration.py`; the payload carries the
base branch and scope description interpolated into the message. -/
inductive GitRepositoryError where
  | noChangesFound (baseBranch : String) (scopeDesc : String)
deriving DecidableEq

/-- The untracked file list: `[f.strip() for f in stdout.split(chr(10)) if f.strip()]`. -/
def untrackedFiles (gs : GitState) : List String :=
  ((gs.untrackedLs.splitOn "\n").map pstrip).filter (fun f => f ≠ "")

/-- Embedding of `git_integration.generate_diff` given the subprocess
outputs: the committed diff always (labeled only under scope `all`),
then — under scope `all` only — the staged diff, the unstaged diff and
the untracked-file contents, each section appended exactly when
non-empty, in that order; an empty section list raises. -/
def generate_diff (gs : GitState) (baseBranch : String) (scope : String) :
    Except GitRepositoryError String :=
  let committed := pstrip gs.committedOut
  let s1 : List String :=
    if committed ≠ "" then
      (if scope = "all" then ["# === COMMITTED CHANGES ==="] else []) ++ [committed]
    else []
  let s2 : List String :=
    if scope = "all" then
      let staged := pstrip gs.stagedOut
      (if staged ≠ "" then ["# === STAGED CHANGES ===", staged] else []) ++
      (let unstaged := pstrip gs.unstagedOut
       (if unstaged ≠ "" then ["# === UNSTAGED CHANGES ===", unstaged] else []) ++
       (if untrackedFiles gs ≠ [] then
          "# === UNTRACKED FILES ===" ::
            (untrackedFiles gs).filterMap (fun f =>
              let d := pstrip (gs.noIndexDiff f)
              if d ≠ "" then some d else Option.none)
        else []))
    else []
  let sections := s1 ++ s2
  if sections = [] then
    .error (.noChangesFound baseBranch
      (if scope = "all" then "committed, staged, or unstaged" else "committed"))
  else .ok (joinSep "\n\n" sections)

/-! ## nllm_runner.py and the post-execution phase of cli.py

`NLLMRunner.run_review` hands the prompt to the external `nllm` library
and reshapes the library's per-model result objects into a plain Python
dict.  The `review` command in `cli.py`, however, consumes the returned
value through attribute access (`nllm_results.results`,
`result.status`, …), i.e. it is written against the library's raw
`NllmResults` object.  To express both shapes, Python values are
embedded as `PyVal` and attribute access as `getattr`, which fails on a
dict exactly as Python raises `AttributeError`.  The `json.loads`
fallback parse and the filesystem scan for the timestamped output
directory are external effects passed in as parameters. -/

/-- A per-model result object of the external nllm library. -/
structure NllmResult where
  model : String
  status : String
  text : String
  stderr_tail : String
  exit_code : Int
  duration_ms : Int
  command : List String
deriving DecidableEq

/-- A Python runtime value as seen by the post-execution code: scalars,
dicts, lists, nllm result objects and the nllm results container. -/
inductive PyVal where
  | str (s : String)
  | int (n : Int)
  | bool (b : Bool)
  | none
  | list (xs : List PyVal)
  | dict (entries : List (String × PyVal))
  | resultObj (r : NllmResult)
  | resultsObj (rs : List NllmResult)

/-- Python attribute access.  A `dict` exposes no data attributes, so
`getattr` on it raises `AttributeError`; the nllm objects expose their
fields. -/
def pyGetAttr : PyVal → String → Except String PyVal
  | .resultsObj rs, "results" => .ok (.list (rs.map .resultObj))
  | .resultObj r, "model" => .ok (.str r.model)
  | .resultObj r, "status" => .ok (.str r.status)
  | .resultObj r, "text" => .ok (.str r.text)
  | .resultObj r, "stderr_tail" => .ok (.str r.stderr_tail)
  | .resultObj r, "exit_code" => .ok (.int r.exit_code)
  | .resultObj r, "duration_ms" => .ok (.int r.duration_ms)
  | .resultObj r, "command" => .ok (.list (r.command.map .str))
  | _, a => .error ("AttributeError: " ++ a)

/-- nllm execution errors raised by `nllm_runner.py`. -/
inductive NLLMError where
  | noModels
  | emptyPrompt

/-- Embedding of `NLLMRunner._prepare_model_options`: an empty option
list contributes nothing, otherwise the single string
`name:opt1:opt2:...`. -/
def prepare_model_options (m : ModelCfg) : List String :=
  if m.options = [] then []
  else [m.name ++ ":" ++ joinSep ":" m.options]

/-- The `output_data` dict built for a successful model result
(`jsonLoads` is the `json.loads` collaborator used for the fallback
parse; the library-side pre-parsed value is `preParsed`). -/
def successEntry (jsonLoads : String → Option PyVal)
    (preParsed : Option PyVal) (r : NllmResult) : List (String × PyVal) :=
  [("model", .str r.model), ("success", .bool true), ("output", .str r.text),
   ("error", .none), ("duration_ms", .int r.duration_ms),
   ("command", .str (joinSep " " r.command))] ++
  (match preParsed with
   | some j => [("parsed_output", j)]
   | Option.none =>
     match jsonLoads r.text with
     | some j => [("parsed_output", j)]
     | Option.none => [])

/-- The `error_data` dict built for a failed model result; Python
`a or b` on the empty `stderr_tail` falls back to the synthesized
message. -/
def errorEntry (r : NllmResult) : List (String × PyVal) :=
  [("model", .str r.model), ("success", .bool false), ("output", .str r.text),
   ("error", .str (if r.stderr_tail ≠ "" then r.stderr_tail
                   else "Model " ++ r.status ++ ": exit code " ++ toString r.exit_code)),
   ("return_code", .int r.exit_code), ("duration_ms", .int r.duration_ms),
   ("command", .str (joinSep " " r.command))]

/-- Embedding of `NLLMRunner.run_review`: validate the model list and
the stripped prompt, run the external library (its per-model results and
each result's pre-parsed JSON arrive as the `externalResults` input),
partition by `status == "ok"` into the `results`/`errors` dicts, and
return the summary dict.  `outputDirVal` stands for the
filesystem-derived `output_dir` value of lines 121-144. -/
def run_review (models : List ModelCfg) (prompt : String)
    (externalResults : List (NllmResult × Option PyVal))
    (jsonLoads : String → Option PyVal) (outputDirVal : PyVal) :
    Except NLLMError PyVal :=
  if models = [] then .error .noModels
  else if pstrip prompt = "" then .error .emptyPrompt
  else
    let okEntries := externalResults.filterMap (fun rp =>
      if rp.1.status = "ok" then
        some (rp.1.model, PyVal.dict (successEntry jsonLoads rp.2 rp.1))
      else Option.none)
    let errEntries := externalResults.filterMap (fun rp =>
      if rp.1.status = "ok" then Option.none
      else some (rp.1.model, PyVal.dict (errorEntry rp.1)))
    .ok (.dict
      [("results", .dict okEntries), ("errors", .dict errEntries),
       ("success_count", .int okEntries.length),
       ("error_count", .int errEntries.length),
       ("total_models", .int models.length),
       ("output_dir", outputDirVal)])

/-- The status of one element of `nllm_results.results` as read by the
CLI (`r.status`). -/
def statusOf (v : PyVal) : Except String String :=
  match pyGetAttr v "status" with
  | .ok (.str s) => .ok s
  | .ok _ => .error "TypeError: status is not a string"
  | .error e => .error e

/-- The success/failure counting of `cli.review` lines 183-184:
`len([r for r in nllm_results.results if r.status == "ok"])` and its
complement. -/
def countStatuses : List PyVal → Except String (Nat × Nat)
  | [] => .ok (0, 0)
  | v :: rest =>
    match statusOf v, countStatuses rest with
    | .ok s, .ok (a, b) => if s = "ok" then .ok (a + 1, b) else .ok (a, b + 1)
    | .error e, _ => .error e
    | _, .error e => .error e

/-- An exception crossing the post-execution phase of `cli.review`:
`typer.Exit` (click's `Exit`, a `RuntimeError` subclass carrying the
requested exit code) raised by the policy code itself, or an
attribute/type error from consuming the results value. -/
inductive CliExc where
  | typerExit (code : Nat)
  | attributeError (msg : String)

/-- Embedding of the body of `cli.review` after the results are
obtained (lines 160-194), still inside the `try` block:
`display_nllm_results` first reads `nllm_results.results` (line 297)
and each result's `status`; the command then counts statuses and raises
`typer.Exit(1)` when no model succeeded, `typer.Exit(2)` when some
failed, and falls through normally on full success. -/
def review_tail (nllm_results : PyVal) : Except CliExc Unit :=
  match pyGetAttr nllm_results "results" with
  | .error e => .error (.attributeError e)
  | .ok (.list xs) =>
    match countStatuses xs with
    | .error e => .error (.attributeError e)
    | .ok (successes, failures) =>
      if successes = 0 then .error (.typerExit 1)
      else if failures > 0 then .error (.typerExit 2)
      else .ok ()
  | .ok _ => .error (.attributeError "TypeError: results is not a list")

/-- The process exit code of `cli.review` after the results are
obtained: the handler chain of lines 196-208 around `review_tail`.  A
normal return completes the command (exit 0).  Every exception the tail
can raise is neither a `GitReviewerError` nor a `KeyboardInterrupt` —
including `typer.Exit`, which subclasses click's `Exit` and hence
`RuntimeError` — so it is intercepted by the `except Exception` handler
at line 202, which raises `typer.Exit(1)`: the `typer.Exit(2)` of line
192 never reaches the process boundary. -/
def review_after_execution (nllm_results : PyVal) : Nat :=
  match review_tail nllm_results with
  | .ok _ => 0
  | .error (.typerExit _) => 1
  | .error (.attributeError _) => 1

/-! ## api.py -/

/-- The names bound in the module namespace of `api.py` when
`review_repository` runs: the module-level imports and the module's own
definitions.  `time` is not among them — `api.py` has no `import time`. -/
def apiModuleNames : List String :=
  ["Path", "Any", "get_models_config", "load_config", "build_repo_context",
   "get_context_summary", "resolve_context_paths", "GitReviewerError",
   "generate_diff", "validate_and_prepare_repo", "NLLMRunner",
   "format_prompt_for_nllm", "populate_template", "review_repository",
   "check_configuration", "get_config_info", "create_config"]

/-- Python exceptions distinguished by the embedding of
`review_repository`: the `NameError` from an unbound global and the
tool's own `GitReviewerError` family. -/
inductive PyExc where
  | nameError (name : String)
  | gitReviewerError (msg : String)
deriving DecidableEq

/-- Python text of an exception (`str(e)`; quotes omitted). -/
def renderExc : PyExc → String
  | .nameError n => "name " ++ n ++ " is not defined"
  | .gitReviewerError m => m

/-- Evaluation of a global name: bound names evaluate, unbound ones
raise `NameError`. -/
def evalGlobal (names : List String) (n : String) : Except PyExc Unit :=
  if names.contains n then .ok () else .error (.nameError n)

/-- The `except Exception` handler of `review_repository` (lines
130-134): a `GitReviewerError` is re-raised as is, anything else is
wrapped into one. -/
def wrapReviewErrors (r : Except PyExc Nat) : Except PyExc Nat :=
  match r with
  | .error (.gitReviewerError m) => .error (.gitReviewerError m)
  | .error e => .error (.gitReviewerError ("Unexpected error during review: " ++ renderExc e))
  | .ok v => .ok v

/-- Embedding of the exception-handling control flow of
`api.review_repository`: line 47 (`start_time = time.time()`) executes
before the `try` statement of line 49, so the name `time` is evaluated
in the module namespace outside the handler; the rest of the function
body (unreachable, and built from external collaborators) is the `body`
parameter, and only it is guarded by the `try`/`except` wrapper. -/
def review_repository (body : Unit → Except PyExc Nat) : Except PyExc Nat :=
  match evalGlobal apiModuleNames "time" with
  | .error e => .error e
  | .ok _ => wrapReviewErrors (body ())

/-- Discriminator: does a call outcome consist of raising a
`GitReviewerError`? -/
def raisesGitReviewerError (r : Except PyExc Nat) : Bool :=
  match r with
  | .error (.gitReviewerError _) => true
  | _ => false

/-! ## Theorems: configuration merge (C3) -/

/-- Updating a key and then looking it up yields the new value. -/
theorem lookup_setKey_self {α : Type} (m : List (String × α)) (k : String) (v : α) :
    lookupKey (setKey m k v) k = some v := by
  induction m with
  | nil => simp [setKey, lookupKey]
  | cons e rest ih =>
    obtain ⟨k', v'⟩ := e
    by_cases h : k' = k
    · simp [setKey, lookupKey, h]
    · simp [setKey, lookupKey, h, ih]

/-- Updating one key leaves the lookup of any other key unchanged. -/
theorem lookup_setKey_ne {α : Type} (m : List (String × α)) (k' k : String) (v : α)
    (h : k' ≠ k) : lookupKey (setKey m k' v) k = lookupKey m k := by
  induction m with
  | nil => simp [setKey, lookupKey, h]
  | cons e rest ih =>
    obtain ⟨k₁, v₁⟩ := e
    by_cases h₁ : k₁ = k'
    · simp [setKey, lookupKey, h₁, h]
    · simp only [setKey, if_neg h₁]
      by_cases h₂ : k₁ = k
      · simp [lookupKey, h₂]
      · simp [lookupKey, h₂, ih]

/-- The value the merge loop stores for one override entry: the
recursive merge when both sides hold dicts at the key, the override
value wholesale otherwise. -/
def mergedVal (b : List (String × CVal)) (k : String) (v : CVal) : CVal :=
  match lookupKey b k, v with
  | some (CVal.dict d1), CVal.dict d2 => CVal.dict (deep_merge_config d1 d2)
  | _, _ => v

/-- One step of the merge loop: the head override entry updates the
running result at its key with `mergedVal`. -/
theorem deep_merge_cons (b : List (String × CVal)) (k : String) (v : CVal)
    (rest : List (String × CVal)) :
    deep_merge_config b ((k, v) :: rest) =
      deep_merge_config (setKey b k (mergedVal b k v)) rest := by
  rw [deep_merge_config.eq_def]
  rcases hb : lookupKey b k with _ | vb
  · cases v <;> simp [mergedVal, hb]
  · cases vb <;> cases v <;> simp [mergedVal, hb]

/-- A key absent from the override is looked up in the base after the
merge. -/
theorem lookup_merge_of_not_mem (o : List (String × CVal)) (b : List (String × CVal))
    (k : String) (h : k ∉ o.map Prod.fst) :
    lookupKey (deep_merge_config b o) k = lookupKey b k := by
  induction o generalizing b with
  | nil => rw [deep_merge_config]
  | cons e rest ih =>
    obtain ⟨k₁, v₁⟩ := e
    simp only [List.map_cons, List.mem_cons, not_or] at h
    obtain ⟨hne, hrest⟩ := h
    rw [deep_merge_cons, ih _ hrest,
      lookup_setKey_ne _ _ _ _ (fun hk => hne hk.symm)]

/-- Claim C3: `deep_merge_config` is right-biased per key and recurses
exactly when both sides hold a nested mapping at the key, replacing the
value wholesale otherwise: for a duplicate-free override (every embedded
Python dict is), the merged lookup of `k` is the base value when the
override lacks `k`, the recursive merge when both sides hold dicts at
`k`, and the override value in every other case. -/
theorem deep_merge_config_lookup (b o : List (String × CVal)) (k : String)
    (ho : NodupKeys o) :
    lookupKey (deep_merge_config b o) k =
      match lookupKey o k with
      | Option.none => lookupKey b k
      | some v =>
        match lookupKey b k, v with
        | some (CVal.dict d1), CVal.dict d2 =>
          some (CVal.dict (deep_merge_config d1 d2))
        | _, _ => some v := by
  induction o generalizing b with
  | nil =>
    rw [deep_merge_config]
    rfl
  | cons e rest ih =>
    obtain ⟨k₁, v₁⟩ := e
    have hpair : NodupKeys rest ∧ k₁ ∉ rest.map Prod.fst := by
      have h := List.nodup_cons.mp
        (show (k₁ :: rest.map Prod.fst).Nodup by simpa [NodupKeys] using ho)
      exact ⟨h.2, h.1⟩
    by_cases hk : k₁ = k
    · subst hk
      rw [deep_merge_cons, lookup_merge_of_not_mem _ _ _ hpair.2,
        lookup_setKey_self]
      simp only [lookupKey, if_pos rfl]
      rcases hb : lookupKey b k₁ with _ | vb
      · cases v₁ <;> simp [mergedVal, hb]
      · cases vb <;> cases v₁ <;> simp [mergedVal, hb]
    · rw [deep_merge_cons, ih _ hpair.1]
      simp only [lookup_setKey_ne _ _ _ _ hk]
      simp only [lookupKey, if_neg hk]

/-- Witness for C3 at the specification's example: merging
`{a: {b: 1, c: 2}}` with `{a: {b: 10}}` yields `{a: {b: 10, c: 2}}`. -/
theorem deep_merge_config_lookup_witness :
    NodupKeys [("a", CVal.dict [("b", CVal.int 10)])] ∧
    lookupKey
      (deep_merge_config
        [("a", CVal.dict [("b", CVal.int 1), ("c", CVal.int 2)])]
        [("a", CVal.dict [("b", CVal.int 10)])]) "a" =
      some (CVal.dict [("b", CVal.int 10), ("c", CVal.int 2)]) := by
  refine ⟨by decide, ?_⟩
  rw [deep_merge_config_lookup _ _ _ (by decide)]
  simp [lookupKey, deep_merge_config, setKey]

/-! ## Theorems: model filtering (C7) -/

/-- Claim C7: filtering the configured models by a requested name list
fails with a configuration error carrying the first requested name that
resolves to no configured model together with the sorted list of all
available names; when every requested name resolves, no error is raised
and the result collects, per requested name in order, the first
configured model of that name. -/
theorem get_models_config_filter (models : List ModelCfg) (ns : List String) :
    match ns.find? (fun n => !((models.map ModelCfg.name).contains n)) with
    | some n =>
      get_models_config models (some ns) =
        .error (.modelNotFound n (sortedModelNames models))
    | Option.none =>
      get_models_config models (some ns) =
        .ok (ns.filterMap (fun n => models.find? (fun m => m.name == n))) := by
  show match ns.find? (fun n => !((models.map ModelCfg.name).contains n)) with
    | some n =>
      resolve_model_names models ns =
        .error (.modelNotFound n (sortedModelNames models))
    | Option.none =>
      resolve_model_names models ns =
        .ok (ns.filterMap (fun n => models.find? (fun m => m.name == n)))
  induction ns with
  | nil => simp [resolve_model_names]
  | cons n rest ih =>
    by_cases hmem : (models.map ModelCfg.name).contains n
    · have hstep : List.find? (fun n => !((models.map ModelCfg.name).contains n)) (n :: rest)
          = List.find? (fun n => !((models.map ModelCfg.name).contains n)) rest := by
        rw [List.find?_cons, show (!((models.map ModelCfg.name).contains n)) = false from by
          rw [hmem]; rfl]
      rw [hstep]
      revert ih
      cases hfind : rest.find? (fun n => !((models.map ModelCfg.name).contains n)) with
      | some n' =>
        intro ih
        simp only [resolve_model_names, if_pos hmem, ih]
      | none =>
        intro ih
        simp only [resolve_model_names, if_pos hmem, ih, List.filterMap_cons]
        cases hf : models.find? (fun m => m.name == n) <;> simp [hf]
    · have hfalse : (models.map ModelCfg.name).contains n = false :=
        Bool.eq_false_iff.mpr hmem
      have hstep : List.find? (fun n => !((models.map ModelCfg.name).contains n)) (n :: rest)
          = some n := by
        rw [List.find?_cons, show (!((models.map ModelCfg.name).contains n)) = true from by
          rw [hfalse]; rfl]
      rw [hstep]
      simp only [resolve_model_names, if_neg hmem]

/-! ## Theorems: context aggregation (C2, C6, C10) -/

/-- Whether a fallible computation produced a value. -/
def isOkResult {ε α : Type} : Except ε α → Bool
  | .ok _ => true
  | .error _ => false

/-- String concatenation concatenates the underlying character lists. -/
theorem string_data_append (a b : String) : (a ++ b).data = a.data ++ b.data := rfl

/-- Every path listed and not yet processed contributes its part to the
aggregation loop. -/
theorem readPart_mem_contextParts (fs : FileSys) :
    ∀ (paths processed : List String) (p : String),
      p ∈ paths → p ∉ processed → readPart fs p ∈ contextParts fs processed paths := by
  intro paths
  induction paths with
  | nil =>
    intro processed p hp _
    exact absurd hp (List.not_mem_nil p)
  | cons q rest ih =>
    intro processed p hp hnp
    by_cases hq : q ∈ processed
    · have hpq : p ≠ q := fun h => hnp (h ▸ hq)
      have hp' : p ∈ rest := by
        rcases List.mem_cons.mp hp with h | h
        · exact absurd h hpq
        · exact h
      simp only [contextParts, if_pos hq]
      exact ih processed p hp' hnp
    · simp only [contextParts, if_neg hq]
      by_cases hpq : p = q
      · subst hpq
        exact List.mem_cons_self _ _
      · have hp' : p ∈ rest := by
          rcases List.mem_cons.mp hp with h | h
          · exact absurd h hpq
          · exact h
        refine List.mem_cons_of_mem _ (ih (q :: processed) p hp' ?_)
        intro hmem
        rcases List.mem_cons.mp hmem with h | h
        · exact hpq h
        · exact hnp h

/-- A member of the part list is a contiguous substring of the joined
output. -/
theorem data_infix_joinSep (sep : String) :
    ∀ (parts : List String) (s : String), s ∈ parts →
      s.data <:+: (joinSep sep parts).data := by
  intro parts
  induction parts with
  | nil =>
    intro s hs
    exact absurd hs (List.not_mem_nil s)
  | cons a rest ih =>
    intro s hs
    cases rest with
    | nil =>
      rcases List.mem_cons.mp hs with h | h
      · subst h
        exact List.infix_rfl
      · exact absurd h (List.not_mem_nil s)
    | cons b rest' =>
      rcases List.mem_cons.mp hs with h | h
      · subst h
        show s.data <:+: (s ++ sep ++ joinSep sep (b :: rest')).data
        rw [string_data_append, string_data_append, List.append_assoc]
        exact List.IsPrefix.isInfix (List.prefix_append _ _)
      · have hinf := ih s h
        show s.data <:+: (a ++ sep ++ joinSep sep (b :: rest')).data
        rw [string_data_append]
        exact hinf.trans (List.IsSuffix.isInfix (List.suffix_append _ _))

/-- Counterexample for C2: a 20MB context file does not make
`build_repo_context` fail — the aggregation still produces a context
string (the per-file error is downgraded to an inline annotation). -/
theorem build_repo_context_oversize_counterexample :
    isOkResult
      (build_repo_context [("big.txt", ⟨true, 20971520, "", false, true⟩)]
        ["big.txt"]) = true := by
  rfl

/-- Claim C2 (amended): a listed regular file larger than the 10MB
per-file limit makes `validate_context_file` (and hence the read of that
file) fail with a descriptive error carrying the offending path and
size, but `build_repo_context` catches the error and embeds it as an
inline annotation, producing a context string whenever the 50MB
aggregate limit is respected. -/
theorem validate_oversized_file_inline (fs : FileSys) (p : String) (info : FSFile)
    (h : lookupFS fs p = some info) (hf : info.isFile = true)
    (hs : info.size > maxFileSizeBytes) :
    validate_context_file fs p = .error (.fileTooLarge p info.size) ∧
    (totalBytes fs [p] ≤ maxTotalSizeBytes →
      build_repo_context fs [p] = .ok (inlineErrorNote p (.fileTooLarge p info.size))) := by
  have hval : validate_context_file fs p = .error (.fileTooLarge p info.size) := by
    simp [validate_context_file, h, hf, hs]
  refine ⟨hval, ?_⟩
  intro htot
  have hle : ¬ (totalBytes fs [p] > maxTotalSizeBytes) := by omega
  have hread : readPart fs p = inlineErrorNote p (.fileTooLarge p info.size) := by
    simp [readPart, read_context_file, hval]
  have hparts : contextParts fs [] [p] = [inlineErrorNote p (.fileTooLarge p info.size)] := by
    simp [contextParts, hread]
  simp [build_repo_context, hle, hparts, hread, joinSep]

/-- Witness for C2 at a concrete 20MB file. -/
theorem validate_oversized_file_inline_witness :
    validate_context_file [("big.txt", ⟨true, 20971520, "", false, true⟩)] "big.txt" =
      .error (.fileTooLarge "big.txt" 20971520) ∧
    build_repo_context [("big.txt", ⟨true, 20971520, "", false, true⟩)] ["big.txt"] =
      .ok (inlineErrorNote "big.txt" (.fileTooLarge "big.txt" 20971520)) := by
  have h := validate_oversized_file_inline
    [("big.txt", ⟨true, 20971520, "", false, true⟩)] "big.txt"
    ⟨true, 20971520, "", false, true⟩ rfl rfl (by decide)
  exact ⟨h.1, h.2 (by decide)⟩

/-- Claim C6: aggregating an empty context-file list returns the empty
string; a listed path that does not exist on disk does not abort the
aggregation — its part is the inline error annotation carrying the path,
and the aggregate output (covering every listed file) contains each
listed file's part, in particular that annotation, as a substring. -/
theorem build_repo_context_missing_inline (fs : FileSys) (paths : List String)
    (p : String) :
    build_repo_context fs [] = .ok "" ∧
    (lookupFS fs p = Option.none →
      readPart fs p = inlineErrorNote p (.doesNotExist p)) ∧
    (p ∈ paths → totalBytes fs paths ≤ maxTotalSizeBytes →
      ∃ s, build_repo_context fs paths = .ok s ∧ (readPart fs p).data <:+: s.data) := by
  refine ⟨rfl, ?_, ?_⟩
  · intro h
    simp [readPart, read_context_file, validate_context_file, h]
  · intro hp htot
    have hne : ¬ (paths = []) := by
      rintro rfl
      exact absurd hp (List.not_mem_nil p)
    have hle : ¬ (totalBytes fs paths > maxTotalSizeBytes) := by omega
    have hmem := readPart_mem_contextParts fs paths [] p hp (List.not_mem_nil p)
    refine ⟨joinSep "\n" (contextParts fs [] paths), ?_, ?_⟩
    · simp only [build_repo_context, if_neg hne, if_neg hle,
        if_neg (List.ne_nil_of_mem hmem)]
    · exact data_infix_joinSep "\n" _ _ hmem

/-- Witness for C6: a missing path next to a readable file. -/
theorem build_repo_context_missing_inline_witness :
    build_repo_context [("ok.txt", ⟨true, 5, "hello", false, true⟩)] [] = .ok "" ∧
    (∃ s,
      build_repo_context [("ok.txt", ⟨true, 5, "hello", false, true⟩)]
        ["missing.txt", "ok.txt"] = .ok s ∧
      (inlineErrorNote "missing.txt" (.doesNotExist "missing.txt")).data <:+: s.data) := by
  have h := build_repo_context_missing_inline
    [("ok.txt", ⟨true, 5, "hello", false, true⟩)] ["missing.txt", "ok.txt"] "missing.txt"
  have h2 := h.2.1 rfl
  have h3 := h.2.2 (by simp) (by decide)
  rw [h2] at h3
  exact ⟨h.1, h3⟩

/-- Claim C10: `get_context_summary` assigns each listed path to exactly
one of the four categories, so the total count is the sum of the
missing, error, binary and readable counts. -/
theorem get_context_summary_partition (fs : FileSys) (paths : List String) :
    (get_context_summary fs paths).total_files =
      (get_context_summary fs paths).missing_files +
      (get_context_summary fs paths).error_files +
      (get_context_summary fs paths).binary_files +
      (get_context_summary fs paths).readable_files := by
  induction paths with
  | nil => rfl
  | cons p rest ih =>
    rcases h : lookupFS fs p with _ | info
    · simp only [get_context_summary, h]
      omega
    · by_cases hf : info.isFile = false
      · simp only [get_context_summary, h, if_pos hf]
        omega
      · by_cases hb : is_binary_file fs p
        · simp only [get_context_summary, h, if_neg hf, if_pos hb]
          omega
        · simp only [get_context_summary, h, if_neg hf, if_neg hb]
          omega

/-! ## Theorems: template substitution (C5, C8) -/

/-- A string is a valid template identifier: `[_a-zA-Z][_a-zA-Z0-9]*`. -/
def validIdentB (name : String) : Bool :=
  match name.data with
  | [] => false
  | c :: cs => isIdentStart c && cs.all isIdentChar

/-- An identifier-start character is an identifier character. -/
theorem identStart_identChar {c : Char} (h : isIdentStart c = true) :
    isIdentChar c = true := by
  simp only [isIdentStart, Bool.or_eq_true] at h
  simp only [isIdentChar, Bool.or_eq_true]
  tauto

/-- `takeWhile` over an append stops exactly at the boundary when the
left part satisfies the predicate throughout and the right part starts
with a failing character. -/
theorem takeWhile_append_all {p : Char → Bool} :
    ∀ (l₁ l₂ : List Char), l₁.all p = true → p (l₂.headD ' ') = false →
      (l₁ ++ l₂).takeWhile p = l₁ := by
  intro l₁
  induction l₁ with
  | nil =>
    intro l₂ _ hb
    cases l₂ with
    | nil => rfl
    | cons c t =>
      simp only [List.headD_cons] at hb
      simp [List.takeWhile_cons, hb]
  | cons a l₁' ih =>
    intro l₂ hall hb
    simp only [List.all_cons, Bool.and_eq_true] at hall
    simp [List.takeWhile_cons, hall.1, ih l₂ hall.2 hb]

/-- Unfolding of the scanner at the empty input. -/
theorem safe_substitute_nil (vars : List (String × String)) :
    safe_substitute vars [] = [] := by
  rw [safe_substitute.eq_def]

/-- Unfolding of the scanner at an ordinary (non-delimiter) head
character. -/
theorem safe_substitute_other (vars : List (String × String)) (c : Char)
    (rest : List Char) (hc : ¬ (c = '$')) :
    safe_substitute vars (c :: rest) = c :: safe_substitute vars rest := by
  rw [safe_substitute.eq_def]
  simp [hc]

/-- Unfolding of the scanner at a delimiter followed by at least one
character: the escaped, braced, named and invalid alternatives of the
template pattern. -/
theorem safe_substitute_dollar (vars : List (String × String)) (c₁ : Char)
    (rest₁ : List Char) :
    safe_substitute vars ('$' :: c₁ :: rest₁) =
      if c₁ = '$' then '$' :: safe_substitute vars rest₁
      else if c₁ = lbrace then
        (if rest₁.takeWhile isIdentChar ≠ [] ∧
            isIdentStart ((rest₁.takeWhile isIdentChar).headD ' ') ∧
            ((rest₁.drop (rest₁.takeWhile isIdentChar).length).headD ' ') = rbrace then
          match lookupKey vars (String.mk (rest₁.takeWhile isIdentChar)) with
          | some v => v.data ++ safe_substitute vars
              ((rest₁.drop (rest₁.takeWhile isIdentChar).length).drop 1)
          | Option.none => '$' :: lbrace :: (rest₁.takeWhile isIdentChar ++ rbrace ::
              safe_substitute vars ((rest₁.drop (rest₁.takeWhile isIdentChar).length).drop 1))
        else '$' :: safe_substitute vars (c₁ :: rest₁))
      else if isIdentStart c₁ then
        match lookupKey vars (String.mk (c₁ :: rest₁.takeWhile isIdentChar)) with
        | some v => v.data ++ safe_substitute vars
            (rest₁.drop (rest₁.takeWhile isIdentChar).length)
        | Option.none => '$' :: ((c₁ :: rest₁.takeWhile isIdentChar) ++
            safe_substitute vars (rest₁.drop (rest₁.takeWhile isIdentChar).length))
      else '$' :: safe_substitute vars (c₁ :: rest₁) := by
  rw [safe_substitute.eq_def]
  rfl

/-- The scanner copies a `$`-free prefix verbatim. -/
theorem safe_substitute_nodollar (vars : List (String × String)) :
    ∀ (p l : List Char), (∀ c ∈ p, c ≠ '$') →
      safe_substitute vars (p ++ l) = p ++ safe_substitute vars l := by
  intro p
  induction p with
  | nil => intro l _; rfl
  | cons c p' ih =>
    intro l hp
    have hc : ¬ (c = '$') := hp c (List.mem_cons_self _ _)
    rw [List.cons_append, safe_substitute_other vars c _ hc,
      ih l (fun c' hc' => hp c' (List.mem_cons_of_mem _ hc'))]
    rfl

/-- A bound `$name` token is replaced by its value. -/
theorem safe_substitute_named_some (vars : List (String × String)) (c : Char)
    (cs s : List Char) (v : String)
    (hstart : isIdentStart c = true) (hcs : cs.all isIdentChar = true)
    (hb : isIdentChar (s.headD ' ') = false)
    (hlook : lookupKey vars (String.mk (c :: cs)) = some v) :
    safe_substitute vars ('$' :: c :: cs ++ s) =
      v.data ++ safe_substitute vars s := by
  have hcd : ¬ (c = '$') := by
    intro h; subst h; revert hstart; decide
  have hcb : ¬ (c = lbrace) := by
    intro h; subst h; revert hstart; decide
  have htake : (cs ++ s).takeWhile isIdentChar = cs :=
    takeWhile_append_all cs s hcs hb
  have hstep := safe_substitute_dollar vars c (cs ++ s)
  rw [if_neg hcd, if_neg hcb, if_pos hstart, htake, List.drop_left, hlook] at hstep
  simpa using hstep

/-- An unbound `$name` token is left verbatim. -/
theorem safe_substitute_named_none (vars : List (String × String)) (c : Char)
    (cs s : List Char)
    (hstart : isIdentStart c = true) (hcs : cs.all isIdentChar = true)
    (hb : isIdentChar (s.headD ' ') = false)
    (hlook : lookupKey vars (String.mk (c :: cs)) = Option.none) :
    safe_substitute vars ('$' :: c :: cs ++ s) =
      '$' :: c :: cs ++ safe_substitute vars s := by
  have hcd : ¬ (c = '$') := by
    intro h; subst h; revert hstart; decide
  have hcb : ¬ (c = lbrace) := by
    intro h; subst h; revert hstart; decide
  have htake : (cs ++ s).takeWhile isIdentChar = cs :=
    takeWhile_append_all cs s hcs hb
  have hstep := safe_substitute_dollar vars c (cs ++ s)
  rw [if_neg hcd, if_neg hcb, if_pos hstart, htake, List.drop_left, hlook] at hstep
  simpa using hstep

/-- A bound `${name}` token is replaced by its value. -/
theorem safe_substitute_braced_some (vars : List (String × String)) (c : Char)
    (cs s : List Char) (v : String)
    (hstart : isIdentStart c = true) (hcs : cs.all isIdentChar = true)
    (hlook : lookupKey vars (String.mk (c :: cs)) = some v) :
    safe_substitute vars ('$' :: lbrace :: (c :: cs) ++ rbrace :: s) =
      v.data ++ safe_substitute vars s := by
  have hld : ¬ (lbrace = '$') := by decide
  have htake : (c :: (cs ++ rbrace :: s)).takeWhile isIdentChar = c :: cs := by
    rw [List.takeWhile_cons]
    simp only [identStart_identChar hstart, if_true,
      takeWhile_append_all cs (rbrace :: s) hcs
        (by simp only [List.headD_cons]; decide)]
  have hdrop : (c :: (cs ++ rbrace :: s)).drop (c :: cs).length = rbrace :: s := by
    show ((c :: cs) ++ rbrace :: s).drop (c :: cs).length = rbrace :: s
    exact List.drop_left _ _
  have hstep := safe_substitute_dollar vars lbrace (c :: (cs ++ rbrace :: s))
  rw [if_neg hld, if_pos rfl, htake, hdrop] at hstep
  rw [if_pos (by
    refine ⟨by simp, by simp [List.headD_cons, hstart], by simp [List.headD_cons]⟩)] at hstep
  rw [hlook] at hstep
  simpa using hstep

/-- An unbound `${name}` token is left verbatim. -/
theorem safe_substitute_braced_none (vars : List (String × String)) (c : Char)
    (cs s : List Char)
    (hstart : isIdentStart c = true) (hcs : cs.all isIdentChar = true)
    (hlook : lookupKey vars (String.mk (c :: cs)) = Option.none) :
    safe_substitute vars ('$' :: lbrace :: (c :: cs) ++ rbrace :: s) =
      '$' :: lbrace :: (c :: cs) ++ rbrace :: safe_substitute vars s := by
  have hld : ¬ (lbrace = '$') := by decide
  have htake : (c :: (cs ++ rbrace :: s)).takeWhile isIdentChar = c :: cs := by
    rw [List.takeWhile_cons]
    simp only [identStart_identChar hstart, if_true,
      takeWhile_append_all cs (rbrace :: s) hcs
        (by simp only [List.headD_cons]; decide)]
  have hdrop : (c :: (cs ++ rbrace :: s)).drop (c :: cs).length = rbrace :: s := by
    show ((c :: cs) ++ rbrace :: s).drop (c :: cs).length = rbrace :: s
    exact List.drop_left _ _
  have hstep := safe_substitute_dollar vars lbrace (c :: (cs ++ rbrace :: s))
  rw [if_neg hld, if_pos rfl, htake, hdrop] at hstep
  rw [if_pos (by
    refine ⟨by simp, by simp [List.headD_cons, hstart], by simp [List.headD_cons]⟩)] at hstep
  rw [hlook] at hstep
  simpa using hstep

/-- Claim C5: substitution replaces a `$name` or `${name}` token that
has a binding with the bound value and leaves an unbound token verbatim
in the output — the scanner is total, so no error is ever raised.  The
token may sit after any `$`-free prefix and before any suffix that does
not extend the identifier; `substitute_variables` applies the scanner to
the whole content. -/
theorem substitute_variables_tokens (vars : List (String × String)) (name v : String)
    (p s : List Char)
    (hname : validIdentB name = true)
    (hp : ∀ c ∈ p, c ≠ '$')
    (hs : isIdentChar (s.headD ' ') = false) :
    (∀ t : String, substitute_variables t vars = String.mk (safe_substitute vars t.data)) ∧
    (lookupKey vars name = some v →
      safe_substitute vars (p ++ ('$' :: name.data ++ s)) =
        p ++ (v.data ++ safe_substitute vars s) ∧
      safe_substitute vars (p ++ ('$' :: lbrace :: name.data ++ rbrace :: s)) =
        p ++ (v.data ++ safe_substitute vars s)) ∧
    (lookupKey vars name = Option.none →
      safe_substitute vars (p ++ ('$' :: name.data ++ s)) =
        p ++ ('$' :: name.data ++ safe_substitute vars s) ∧
      safe_substitute vars (p ++ ('$' :: lbrace :: name.data ++ rbrace :: s)) =
        p ++ ('$' :: lbrace :: name.data ++ rbrace :: safe_substitute vars s)) := by
  rcases hnd : name.data with _ | ⟨c, cs⟩
  · rw [validIdentB, hnd] at hname
    exact absurd hname (by decide)
  · rw [validIdentB, hnd] at hname
    simp only [Bool.and_eq_true] at hname
    obtain ⟨hstart, hcs⟩ := hname
    have hmk : String.mk (c :: cs) = name := by
      rw [← hnd]
    refine ⟨?_, ?_, ?_⟩
    · intro t
      by_cases ht : t = ""
      · subst ht
        rw [substitute_variables, if_pos rfl]
        show ("" : String) = String.mk (safe_substitute vars [])
        rw [safe_substitute_nil]
      · rw [substitute_variables, if_neg ht]
    · intro hlook
      have hlook' : lookupKey vars (String.mk (c :: cs)) = some v := by
        rw [hmk]; exact hlook
      constructor
      · rw [safe_substitute_nodollar vars p _ hp,
          safe_substitute_named_some vars c cs s v hstart hcs hs hlook']
      · rw [safe_substitute_nodollar vars p _ hp,
          safe_substitute_braced_some vars c cs s v hstart hcs hlook']
    · intro hlook
      have hlook' : lookupKey vars (String.mk (c :: cs)) = Option.none := by
        rw [hmk]; exact hlook
      constructor
      · rw [safe_substitute_nodollar vars p _ hp,
          safe_substitute_named_none vars c cs s hstart hcs hs hlook']
      · rw [safe_substitute_nodollar vars p _ hp,
          safe_substitute_braced_none vars c cs s hstart hcs hlook']

/-- Witness for C5 at the repository's own test case: a bound `$name`
is substituted and the unbound `$day` stays verbatim. -/
theorem substitute_variables_tokens_witness :
    substitute_variables "Hello $name! Today is $day." [("name", "World")] =
      "Hello World! Today is $day." := by
  have h := substitute_variables_tokens [("name", "World")] "name" "World"
    ("Hello ".data) ("! Today is $day.".data) (by decide) (by decide) (by decide)
  have h1 := (h.2.1 (by decide)).1
  have h2 := substitute_variables_tokens [("name", "World")] "day" ""
    ("! Today is ".data) ['.'] (by decide) (by decide) (by decide)
  have h3 := (h2.2.2 (by decide)).1
  have h4 : safe_substitute [("name", "World")] ['.'] = ['.'] := by
    rw [safe_substitute_other _ _ _ (by decide), safe_substitute_nil]
  rw [h.1, show ("Hello $name! Today is $day." : String).data =
    "Hello ".data ++ ('$' :: "name".data ++ "! Today is $day.".data) by decide, h1,
    show ("! Today is $day." : String).data =
      "! Today is ".data ++ ('$' :: "day".data ++ ['.']) by decide, h3, h4]
  decide

/-- Claim C8: the final submission text of `format_prompt_for_nllm` is
the (stripped) system section, a blank line, then the (stripped) prompt
section when the system section is non-empty, and just the prompt
section otherwise; it fails with a template error exactly when the
prompt section is empty after stripping whitespace. -/
theorem format_prompt_for_nllm_spec (tmpl : List (String × String)) :
    (isOkResult (format_prompt_for_nllm tmpl) = true ↔
      pstrip (pyGetD tmpl "prompt") ≠ "") ∧
    (pstrip (pyGetD tmpl "prompt") = "" →
      format_prompt_for_nllm tmpl = .error .emptyPromptSection) ∧
    (pstrip (pyGetD tmpl "prompt") ≠ "" → pstrip (pyGetD tmpl "system") = "" →
      format_prompt_for_nllm tmpl = .ok (pstrip (pyGetD tmpl "prompt"))) ∧
    (pstrip (pyGetD tmpl "prompt") ≠ "" → pstrip (pyGetD tmpl "system") ≠ "" →
      format_prompt_for_nllm tmpl =
        .ok (pstrip (pyGetD tmpl "system") ++ "\n\n" ++ pstrip (pyGetD tmpl "prompt"))) := by
  by_cases hpr : pstrip (pyGetD tmpl "prompt") = ""
  · refine ⟨?_, ?_, ?_, ?_⟩
    · simp [format_prompt_for_nllm, hpr, isOkResult]
    · intro _
      simp [format_prompt_for_nllm, hpr]
    · intro h; exact absurd hpr h
    · intro h; exact absurd hpr h
  · by_cases hsy : pstrip (pyGetD tmpl "system") = ""
    · refine ⟨?_, ?_, ?_, ?_⟩
      · simp [format_prompt_for_nllm, hpr, hsy, isOkResult]
      · intro h; exact absurd h hpr
      · intro _ _
        simp [format_prompt_for_nllm, hpr, hsy]
      · intro _ h; exact absurd hsy h
    · refine ⟨?_, ?_, ?_, ?_⟩
      · simp [format_prompt_for_nllm, hpr, hsy, isOkResult]
      · intro h; exact absurd h hpr
      · intro _ h; exact absurd h hsy
      · intro _ _
        simp [format_prompt_for_nllm, hpr, hsy]

/-- Witness for C8 at a populated template with both sections filled. -/
theorem format_prompt_for_nllm_spec_witness :
    format_prompt_for_nllm [("system", "S"), ("prompt", "P")] = .ok "S\n\nP" := by
  have h := (format_prompt_for_nllm_spec [("system", "S"), ("prompt", "P")]).2.2.2
    (by decide) (by decide)
  rw [h]
  simp only [Except.ok.injEq]
  decide

/-! ## Theorems: diff scopes (C4) -/

/-- The committed section under scope `all`: label plus diff when
non-empty. -/
def committedSection (gs : GitState) : List String :=
  if pstrip gs.committedOut ≠ "" then
    ["# === COMMITTED CHANGES ===", pstrip gs.committedOut]
  else []

/-- The staged section: label plus diff when non-empty. -/
def stagedSection (gs : GitState) : List String :=
  if pstrip gs.stagedOut ≠ "" then
    ["# === STAGED CHANGES ===", pstrip gs.stagedOut]
  else []

/-- The unstaged section: label plus diff when non-empty. -/
def unstagedSection (gs : GitState) : List String :=
  if pstrip gs.unstagedOut ≠ "" then
    ["# === UNSTAGED CHANGES ===", pstrip gs.unstagedOut]
  else []

/-- The untracked section: label plus the non-empty per-file diffs, when
any untracked file is listed. -/
def untrackedSection (gs : GitState) : List String :=
  if untrackedFiles gs ≠ [] then
    "# === UNTRACKED FILES ===" ::
      (untrackedFiles gs).filterMap (fun f =>
        let d := pstrip (gs.noIndexDiff f)
        if d ≠ "" then some d else Option.none)
  else []

/-- Claim C4: with scope `committed` the generated diff is exactly the
committed merge-base-to-HEAD diff (no staged, unstaged or untracked
section, whatever the working tree holds), or the no-changes error when
it is empty; with scope `all`, the output joins every non-empty section,
each labeled, in the fixed order committed, staged, unstaged,
untracked. -/
theorem generate_diff_scope_spec (gs : GitState) (baseBranch : String) :
    (pstrip gs.committedOut ≠ "" →
      generate_diff gs baseBranch "committed" = .ok (pstrip gs.committedOut)) ∧
    (pstrip gs.committedOut = "" →
      generate_diff gs baseBranch "committed" =
        .error (.noChangesFound baseBranch "committed")) ∧
    (generate_diff gs baseBranch "all" =
      if committedSection gs ++ stagedSection gs ++ unstagedSection gs ++
          untrackedSection gs = [] then
        .error (.noChangesFound baseBranch "committed, staged, or unstaged")
      else
        .ok (joinSep "\n\n" (committedSection gs ++ stagedSection gs ++
          unstagedSection gs ++ untrackedSection gs))) := by
  have hca : ¬ (("committed" : String) = "all") := by decide
  refine ⟨?_, ?_, ?_⟩
  · intro h
    simp [generate_diff, hca, h, joinSep]
  · intro h
    simp [generate_diff, hca, h]
  · simp only [generate_diff, committedSection, stagedSection, unstagedSection,
      untrackedSection, List.append_assoc, eq_self_iff_true, if_true, if_pos rfl]
    rfl

/-- Witness for C4: a repository state with committed, staged, unstaged
and untracked changes all present, reviewed under scope `committed`. -/
theorem generate_diff_scope_spec_witness :
    generate_diff
      ⟨"C", "S", "U", "f.txt", fun _ => "D"⟩ "main" "committed" = .ok "C" := by
  have h := (generate_diff_scope_spec ⟨"C", "S", "U", "f.txt", fun _ => "D"⟩ "main").1
    (by decide)
  rw [h]
  simp only [Except.ok.injEq]
  decide

/-! ## Theorems: review exit codes (C1) -/

/-- Claim C1 (divergence witness): the first conjunct evaluates the real
pipeline — `NLLMRunner.run_review` followed by the post-execution phase
of `cli.review` — on an execution in which the single configured model
succeeded: the dict returned by `run_review` has no `results` attribute,
so `display_nllm_results` raises `AttributeError`, the generic handler
catches it and the command exits 1 instead of the claimed 0.  The
remaining conjuncts evaluate the post-execution phase on the raw nllm
results object the CLI was written against: full success exits 0 and
total failure exits 1 as the claim states, but the partial-failure path
raises `typer.Exit(2)` (line 192) inside the `try` block, and since
click's `Exit` subclasses `RuntimeError`, the `except Exception` handler
of line 202 intercepts it — so the distinct exit code 2 is unreachable
and partial failure also exits 1. -/
theorem review_exit_code_bug :
    (run_review [⟨"m1", []⟩] "hello"
        [(⟨"m1", "ok", "out", "", 0, 5, ["llm"]⟩, Option.none)]
        (fun _ => Option.none) PyVal.none).map review_after_execution =
      .ok 1 ∧
    review_after_execution
      (PyVal.resultsObj [⟨"m1", "ok", "out", "", 0, 5, ["llm"]⟩]) = 0 ∧
    review_tail
      (PyVal.resultsObj [⟨"m1", "ok", "out", "", 0, 5, ["llm"]⟩,
        ⟨"m2", "error", "", "boom", 1, 7, ["llm"]⟩]) = .error (.typerExit 2) ∧
    review_after_execution
      (PyVal.resultsObj [⟨"m1", "ok", "out", "", 0, 5, ["llm"]⟩,
        ⟨"m2", "error", "", "boom", 1, 7, ["llm"]⟩]) = 1 ∧
    review_after_execution
      (PyVal.resultsObj [⟨"m2", "error", "", "boom", 1, 7, ["llm"]⟩]) = 1 := by
  refine ⟨rfl, rfl, rfl, rfl, rfl⟩

/-! ## Theorems: the api entry point (C9) -/

/-- Claim C9 (amended): `review_repository` never returns normally — its
first statement evaluates the unbound global `time` and raises
`NameError` — but the exception escapes before the `try` block is
entered, so it reaches the caller unwrapped rather than as a
`GitReviewerError`. -/
theorem review_repository_raises_nameError (body : Unit → Except PyExc Nat) :
    review_repository body = .error (.nameError "time") := by
  rfl

/-- Counterexample for C9 as stated: at a concrete call the raised
exception is the bare `NameError`, not a `GitReviewerError`. -/
theorem review_repository_unwrapped_counterexample :
    review_repository (fun _ => .ok 0) = .error (.nameError "time") ∧
    raisesGitReviewerError (review_repository (fun _ => .ok 0)) = false := by
  refine ⟨rfl, rfl⟩

end GitReviewer
